import Mathlib

/-!
Verification of the custom-pod-autoscaler example hook scripts.

Each script is a one-shot process: it reads one JSON document from standard
input, computes, and either writes a result to standard output and exits 0,
or writes a diagnostic to standard error and exits 1.  The development below
embeds the scripts as pure Lean functions over a JSON value model.  Machine
behaviour is captured by the type `PyOutcome`:

  * `PyOutcome.ok out`      - `out` is written to standard output, exit status 0;
  * `PyOutcome.handled msg` - the script wrote `msg` to standard error and called
    `exit(1)`: exit status 1, standard output empty;
  * `PyOutcome.unhandled exc` - an uncaught Python exception `exc` escaped:
    the interpreter prints a traceback to standard error and exits with
    status 1, standard output empty.

JSON numbers are modelled as integers (every numeric field in the
payloads of this repository is an integer); the one fractional value the
scripts produce, `average_utilization`, is modelled exactly as a rational.
-/

namespace CPA

/-- A single quote character, used inside diagnostic message literals. -/
def sq : String := String.singleton (Char.ofNat 39)

/-- Left brace character. -/
def lbrace : Char := Char.ofNat 123

/-- Right brace character. -/
def rbrace : Char := Char.ofNat 125

/-- JSON values as produced by Python `json.loads`: objects keep their key
order (Python dicts preserve insertion order).  Numbers are restricted to
integers, which covers every payload of this repository. -/
inductive Json where
  | null : Json
  | bool : Bool → Json
  | num : Int → Json
  | str : String → Json
  | arr : List Json → Json
  | obj : List (String × Json) → Json

/-- First binding of a key in an association list (Python dicts produced by
`json.loads` never hold duplicate keys, so first = only). -/
def lookupField : List (String × Json) → String → Option Json
  | [], _ => none
  | (k', v) :: rest, k => if k' = k then some v else lookupField rest k

/-- Python subscript `d["k"]` on a parsed JSON value: defined exactly when the
value is an object holding the key; `none` models the raised `KeyError`
(or `TypeError` when the value is not a dict). -/
def Json.lookup : Json → String → Option Json
  | .obj kvs, k => lookupField kvs k
  | _, _ => none

/-- Chained Python subscripts `d["k1"]["k2"]...`. -/
def Json.path : Json → List String → Option Json
  | j, [] => some j
  | j, k :: ks => match j.lookup k with
    | some v => v.path ks
    | none => none

/-- Whether a character counts as whitespace for Python `int(str)`. -/
def isPySpace (c : Char) : Bool :=
  c = ' ' || c = '\t' || c = '\n' || c = '\r' || c = Char.ofNat 11 || c = Char.ofNat 12

/-- Digit-and-underscore tail of a Python integer literal: underscores must
sit between two digits. -/
def pyIntGo (acc : Nat) : List Char → Option Nat
  | [] => some acc
  | c :: cs =>
    if c.isDigit then pyIntGo (acc * 10 + (c.toNat - 48)) cs
    else if c = '_' then
      match cs with
      | d :: cs2 => if d.isDigit then pyIntGo (acc * 10 + (d.toNat - 48)) cs2 else none
      | [] => none
    else none

/-- Nonempty digit sequence (with optional underscore separators) of a Python
integer literal. -/
def pyIntDigits : List Char → Option Nat
  | c :: cs => if c.isDigit then pyIntGo (c.toNat - 48) cs else none
  | [] => none

/-- Python `int(s)` on a string: optional surrounding whitespace, an optional
sign, then ASCII digits with optional underscore separators; `none` models the
raised `ValueError`. -/
def pyIntOfString (s : String) : Option Int :=
  let core := ((s.data.dropWhile isPySpace).reverse.dropWhile isPySpace).reverse
  match core with
  | '+' :: rest => (pyIntDigits rest).map Int.ofNat
  | '-' :: rest => (pyIntDigits rest).map (fun n => -(n : Int))
  | rest => (pyIntDigits rest).map Int.ofNat

/-- Result of running one hook script: what reaches standard output and
standard error, and the exit status, per the legend at the top of the file. -/
inductive PyOutcome (α : Type) where
  | ok : α → PyOutcome α
  | handled : String → PyOutcome α
  | unhandled : String → PyOutcome α
  deriving Repr, DecidableEq

/-- Process exit status of an outcome: 0 on success, 1 on any failure. -/
def PyOutcome.exitCode {α : Type} : PyOutcome α → Nat
  | .ok _ => 0
  | .handled _ => 1
  | .unhandled _ => 1

/-- What the script wrote to standard output: the result on success, nothing
on any failure. -/
def PyOutcome.stdoutData {α : Type} : PyOutcome α → Option α
  | .ok a => some a
  | .handled _ => none
  | .unhandled _ => none

/-- What reached standard error: nothing on success, the diagnostic message on
a handled failure, the exception text (final traceback line) otherwise. -/
def PyOutcome.stderrText {α : Type} : PyOutcome α → Option String
  | .ok _ => none
  | .handled m => some m
  | .unhandled e => some e

/-- Python `int(x)` applied to a parsed JSON value, with the exception the
failing cases raise: strings raise `ValueError` when unparsable, and
non-numeric non-string values raise `TypeError`. -/
def pyIntOutcome : Json → PyOutcome Int
  | .num n => .ok n
  | .bool b => .ok (if b then 1 else 0)
  | .str s =>
    match pyIntOfString s with
    | some n => .ok n
    | none =>
      .unhandled ("ValueError: invalid literal for int() with base 10: " ++ sq ++ s ++ sq)
  | _ => .unhandled "TypeError: int() argument must be a string, a bytes-like object or a number"

/-- One hexadecimal digit character, lowercase. -/
def hexDigit (n : Nat) : Char :=
  if n < 10 then Char.ofNat (48 + n) else Char.ofNat (87 + n)

/-- Characters one string character contributes inside a serialized JSON
string: `json.dumps` escapes the quote and the backslash, and writes control
characters as a `\u00XX` escape; other characters pass through. -/
def escapeChar (c : Char) : List Char :=
  if c = '"' then ['\\', '"']
  else if c = '\\' then ['\\', '\\']
  else if c.toNat < 32 then
    ['\\', 'u', '0', '0', hexDigit (c.toNat / 16), hexDigit (c.toNat % 16)]
  else [c]

/-- Serialized form of a JSON string, quotes included. -/
def dumpString (s : String) : List Char :=
  '"' :: (s.data.flatMap escapeChar) ++ ['"']

/-- Decimal digit characters of a natural number, most significant first. -/
def natToChars (n : Nat) : List Char :=
  if n < 10 then [Char.ofNat (48 + n)]
  else natToChars (n / 10) ++ [Char.ofNat (48 + n % 10)]
termination_by n
decreasing_by exact Nat.div_lt_self (by omega) (by omega)

/-- Serialized form of a JSON integer. -/
def intToChars (i : Int) : List Char :=
  if i < 0 then '-' :: natToChars i.natAbs else natToChars i.toNat

mutual

/-- Characters `json.dumps` produces for a value, with the default
separators (a comma-space between items, a colon-space after keys). -/
def dumpChars : Json → List Char
  | .null => "null".data
  | .bool true => "true".data
  | .bool false => "false".data
  | .num i => intToChars i
  | .str s => dumpString s
  | .arr xs => '[' :: dumpElems xs ++ [']']
  | .obj kvs => lbrace :: dumpFields kvs ++ [rbrace]

/-- Serialized array elements. -/
def dumpElems : List Json → List Char
  | [] => []
  | [x] => dumpChars x
  | x :: y :: rest => dumpChars x ++ ',' :: ' ' :: dumpElems (y :: rest)

/-- Serialized object fields. -/
def dumpFields : List (String × Json) → List Char
  | [] => []
  | [(k, v)] => dumpString k ++ ':' :: ' ' :: dumpChars v
  | (k, v) :: f :: rest =>
    dumpString k ++ ':' :: ' ' :: dumpChars v ++ ',' :: ' ' :: dumpFields (f :: rest)

end

/-- Value of one hexadecimal digit character. -/
def hexVal (c : Char) : Option Nat :=
  if c.isDigit then some (c.toNat - 48)
  else if 'a' ≤ c ∧ c ≤ 'f' then some (c.toNat - 87)
  else if 'A' ≤ c ∧ c ≤ 'F' then some (c.toNat - 55)
  else none

/-- Body of a JSON string after the opening quote: the decoded characters and
the input after the closing quote.  Raw control characters are rejected and
the standard escapes are decoded, as in `json.loads` (surrogate-pair `\u`
escapes are outside the model: Lean characters are unicode scalars). -/
def parseStringBody : List Char → Option (List Char × List Char)
  | [] => none
  | c :: cs =>
    if c = '"' then some ([], cs)
    else if c = '\\' then
      match cs with
      | [] => none
      | e :: cs2 =>
        if e = '"' then (parseStringBody cs2).map (fun p => ('"' :: p.1, p.2))
        else if e = '\\' then (parseStringBody cs2).map (fun p => ('\\' :: p.1, p.2))
        else if e = '/' then (parseStringBody cs2).map (fun p => ('/' :: p.1, p.2))
        else if e = 'b' then (parseStringBody cs2).map (fun p => (Char.ofNat 8 :: p.1, p.2))
        else if e = 'f' then (parseStringBody cs2).map (fun p => (Char.ofNat 12 :: p.1, p.2))
        else if e = 'n' then (parseStringBody cs2).map (fun p => ('\n' :: p.1, p.2))
        else if e = 'r' then (parseStringBody cs2).map (fun p => ('\r' :: p.1, p.2))
        else if e = 't' then (parseStringBody cs2).map (fun p => ('\t' :: p.1, p.2))
        else if e = 'u' then
          match cs2 with
          | h1 :: h2 :: h3 :: h4 :: cs3 =>
            match hexVal h1, hexVal h2, hexVal h3, hexVal h4 with
            | some a, some b, some c3, some d =>
              (parseStringBody cs3).map
                (fun p => (Char.ofNat (a * 4096 + b * 256 + c3 * 16 + d) :: p.1, p.2))
            | _, _, _, _ => none
          | _ => none
        else none
    else if c.toNat < 32 then none
    else (parseStringBody cs).map (fun p => (c :: p.1, p.2))

/-- Maximal run of decimal digits, accumulated onto `acc`. -/
def parseDigits (acc : Nat) : List Char → Nat × List Char
  | [] => (acc, [])
  | c :: cs =>
    if c.isDigit then parseDigits (acc * 10 + (c.toNat - 48)) cs else (acc, c :: cs)

/-- Nonempty run of decimal digits. -/
def parseNat (cs : List Char) : Option (Nat × List Char) :=
  match cs with
  | c :: _ => if c.isDigit then some (parseDigits 0 cs) else none
  | [] => none

/-- JSON number in its integer form: an optional minus sign then digits. -/
def parseNum : List Char → Option (Int × List Char)
  | [] => none
  | c :: tl =>
    if c = '-' then (parseNat tl).map (fun p => (-(p.1 : Int), p.2))
    else (parseNat (c :: tl)).map (fun p => ((p.1 : Int), p.2))

/-- Whitespace characters `json.loads` skips between tokens. -/
def isJsonWs (c : Char) : Bool := c = ' ' || c = '\t' || c = '\n' || c = '\r'

/-- Drop token-separating whitespace. -/
def skipWs (cs : List Char) : List Char := cs.dropWhile isJsonWs

mutual

/-- One JSON value by recursive descent.  The numeric budget is a modelling
artefact of the embedding: `jsonParse` below supplies one that is always
sufficient for its input. -/
def parseValue : Nat → List Char → Option (Json × List Char)
  | 0, _ => none
  | fuel + 1, cs =>
    match skipWs cs with
    | [] => none
    | c :: cs1 =>
      if c = 'n' then
        match cs1 with
        | 'u' :: 'l' :: 'l' :: r => some (.null, r)
        | _ => none
      else if c = 't' then
        match cs1 with
        | 'r' :: 'u' :: 'e' :: r => some (.bool true, r)
        | _ => none
      else if c = 'f' then
        match cs1 with
        | 'a' :: 'l' :: 's' :: 'e' :: r => some (.bool false, r)
        | _ => none
      else if c = '"' then
        (parseStringBody cs1).map (fun p => (.str (String.mk p.1), p.2))
      else if c = '[' then
        match skipWs cs1 with
        | ']' :: r => some (.arr [], r)
        | _ => (parseElems fuel cs1).map (fun p => (.arr p.1, p.2))
      else if c = lbrace then
        match skipWs cs1 with
        | d :: r =>
          if d = rbrace then some (.obj [], r)
          else (parseFields fuel cs1).map (fun p => (.obj p.1, p.2))
        | [] => none
      else (parseNum (c :: cs1)).map (fun p => (Json.num p.1, p.2))

/-- Comma-separated array elements up to the closing bracket. -/
def parseElems : Nat → List Char → Option (List Json × List Char)
  | 0, _ => none
  | fuel + 1, cs =>
    match parseValue fuel cs with
    | none => none
    | some (v, r) =>
      match skipWs r with
      | ',' :: r2 => (parseElems fuel r2).map (fun p => (v :: p.1, p.2))
      | ']' :: r2 => some ([v], r2)
      | _ => none

/-- Comma-separated object fields up to the closing brace. -/
def parseFields : Nat → List Char → Option (List (String × Json) × List Char)
  | 0, _ => none
  | fuel + 1, cs =>
    match skipWs cs with
    | '"' :: r =>
      match parseStringBody r with
      | none => none
      | some (kcs, r2) =>
        match skipWs r2 with
        | ':' :: r3 =>
          match parseValue fuel r3 with
          | none => none
          | some (v, r4) =>
            match skipWs r4 with
            | ',' :: r5 =>
              (parseFields fuel r5).map (fun p => ((String.mk kcs, v) :: p.1, p.2))
            | d :: r5 => if d = rbrace then some ([(String.mk kcs, v)], r5) else none
            | [] => none
        | _ => none
    | _ => none

end

/-- Python `json.loads`: parse one complete JSON document, allowing only
whitespace around it; `none` models the raised `JSONDecodeError`.  Fractional
and exponent number forms are outside the integer-number model, and an object
with a duplicated key keeps both bindings (the repository payloads have
neither). -/
def jsonParse (s : String) : Option Json :=
  match parseValue (s.length + 1) s.data with
  | some (j, rest) => if skipWs rest = [] then some j else none
  | none => none

/-- Python `json.dumps` with its default separators. -/
def jsonDump (j : Json) : String := String.mk (dumpChars j)

/-- Loop of `evaluate` in src/example/simple-pod-metrics-python/evaluate.py:
for each metric entry, `json.loads(metric["value"])` is applied to the
string-encoded value, and `int(json_value["available"])` is accumulated.
Entries are processed left to right and the first failure aborts. -/
def totalAvailable : List Json → PyOutcome Int
  | [] => .ok 0
  | m :: rest =>
    match m.lookup "value" with
    | none => .unhandled "KeyError: value"
    | some (.str s) =>
      match jsonParse s with
      | none => .unhandled "json.decoder.JSONDecodeError"
      | some jv =>
        match jv.lookup "available" with
        | none => .unhandled "KeyError: available"
        | some av =>
          match pyIntOutcome av with
          | .ok a =>
            match totalAvailable rest with
            | .ok t => .ok (a + t)
            | e => e
          | .handled e => .handled e
          | .unhandled e => .unhandled e
    | some _ => .unhandled "TypeError: the JSON object must be str, bytes or bytearray"

/-- Tail of `evaluate` in src/example/simple-pod-metrics-python/evaluate.py
after the loop: read the baseline from `spec["resource"]["status"]["replicas"]`,
apply the two adjustment branches in sequence, and write the evaluation. -/
def simplePodMetricsAfterLoop (spec : Json) (total : Int) : PyOutcome Json :=
  match spec.path ["resource", "status", "replicas"] with
  | none => .unhandled "KeyError: resource / status / replicas"
  | some repJ =>
    match pyIntOutcome repJ with
    | .ok baseline =>
      let t1 := if total > 5 then baseline - 1 else baseline
      let t2 := if total ≤ 0 then t1 + 1 else t1
      .ok (Json.obj [("targetReplicas", Json.num t2)])
    | .handled e => .handled e
    | .unhandled e => .unhandled e

/-- evaluate from src/example/simple-pod-metrics-python/evaluate.py.  Python
iteration over a non-list `spec["metrics"]` is modelled to the extent it can
occur (an empty dict or string iterates zero times; anything else fails on
the first element or on `len`). -/
def simplePodMetricsEvaluate (spec : Json) : PyOutcome Json :=
  match spec.lookup "metrics" with
  | none => .unhandled "KeyError: metrics"
  | some (.arr entries) =>
    match totalAvailable entries with
    | .ok total => simplePodMetricsAfterLoop spec total
    | .handled e => .handled e
    | .unhandled e => .unhandled e
  | some (.obj []) => simplePodMetricsAfterLoop spec 0
  | some (.obj (_ :: _)) => .unhandled "TypeError: string indices must be integers"
  | some (.str s) =>
    if s = "" then simplePodMetricsAfterLoop spec 0
    else .unhandled "TypeError: string indices must be integers"
  | some _ => .unhandled "TypeError: object is not iterable"

/-- Loop of `evaluate` in src/example/python/evaluate.py: each entry is read
at `metric["pod"]` and `metric["available"]`, and `int(available)` is
accumulated. -/
def pythonAvailableLoop : List Json → PyOutcome Int
  | [] => .ok 0
  | m :: rest =>
    match m.lookup "pod" with
    | none => .unhandled "KeyError: pod"
    | some _ =>
      match m.lookup "available" with
      | none => .unhandled "KeyError: available"
      | some av =>
        match pyIntOutcome av with
        | .ok a =>
          match pythonAvailableLoop rest with
          | .ok t => .ok (a + t)
          | e => e
        | .handled e => .handled e
        | .unhandled e => .unhandled e

/-- Message CPython prints when `target_replica_count` is read before any
assignment. -/
def unboundMsg : String :=
  "UnboundLocalError: local variable " ++ sq ++ "target_replica_count" ++ sq ++
    " referenced before assignment"

/-- Tail of `evaluate` in src/example/python/evaluate.py after the loop.  The
local `target_replica_count` has no assignment anywhere before its first
read, so it is modelled as an unassigned local (`none`); the two augmented
assignments and the final read each read the local first and raise
`UnboundLocalError` when it is unassigned. -/
def pythonEvaluateTail (total : Int) : PyOutcome Json :=
  let target0 : Option Int := none
  match (if total > 5 then
           match target0 with
           | some t => Except.ok (some (t - 1))
           | none => Except.error unboundMsg
         else Except.ok target0 : Except String (Option Int)) with
  | .error e => .unhandled e
  | .ok target1 =>
    match (if total ≤ 0 then
             match target1 with
             | some t => Except.ok (some (t + 1))
             | none => Except.error unboundMsg
           else Except.ok target1 : Except String (Option Int)) with
    | .error e => .unhandled e
    | .ok target2 =>
      match target2 with
      | some t => .ok (Json.obj [("target_replicas", Json.num t)])
      | none => .unhandled unboundMsg

/-- evaluate from src/example/python/evaluate.py. -/
def pythonEvaluate (metrics : Json) : PyOutcome Json :=
  match metrics with
  | .arr entries =>
    match pythonAvailableLoop entries with
    | .ok total => pythonEvaluateTail total
    | .handled e => .handled e
    | .unhandled e => .unhandled e
  | .obj [] => pythonEvaluateTail 0
  | .obj (_ :: _) => .unhandled "TypeError: string indices must be integers"
  | .str s =>
    if s = "" then pythonEvaluateTail 0
    else .unhandled "TypeError: string indices must be integers"
  | _ => .unhandled "TypeError: object is not iterable"

/-- evaluate from src/example/scale-on-tweet/evaluate.py: requires exactly one
metric entry, parses its string-encoded value, extracts `up` and `down`, and
writes `{"target_replicas": up - down}` with no clamping.  The length test
plus single subscript is modelled for list input (the shape the orchestrator
supplies). -/
def scaleOnTweetEvaluate (metrics : Json) : PyOutcome Json :=
  match metrics with
  | .arr [m] =>
    match m.lookup "value" with
    | none => .unhandled "KeyError: value"
    | some (.str s) =>
      match jsonParse s with
      | none => .unhandled "json.decoder.JSONDecodeError"
      | some ratio =>
        match ratio.lookup "up" with
        | none => .unhandled "KeyError: up"
        | some upJ =>
          match pyIntOutcome upJ with
          | .ok up =>
            match ratio.lookup "down" with
            | none => .unhandled "KeyError: down"
            | some downJ =>
              match pyIntOutcome downJ with
              | .ok down => .ok (Json.obj [("target_replicas", Json.num (up - down))])
              | .handled e => .handled e
              | .unhandled e => .unhandled e
          | .handled e => .handled e
          | .unhandled e => .unhandled e
    | some _ => .unhandled "TypeError: the JSON object must be str, bytes or bytearray"
  | .arr _ => .handled "Expected 1 metric"
  | _ => .unhandled "TypeError: object has no len()"

/-- Diagnostic `evaluate` in src/example/python-custom-autoscaler/evaluate.py
writes when `int()` rejects the metric value string (the
`InvalidMetricValueError` of the specification's taxonomy). -/
def invalidMetricMsg (s : String) : String :=
  "Invalid metric value: invalid literal for int() with base 10: " ++ sq ++ s ++ sq

/-- evaluate from src/example/python-custom-autoscaler/evaluate.py: doubles
the first metric value.  Only `ValueError` is caught, so a missing key and a
value on which `int()` raises `TypeError` escape unhandled. -/
def pythonCustomAutoscalerEvaluate (spec : Json) : PyOutcome Json :=
  match spec.path ["resourceMetrics", "metrics"] with
  | none => .unhandled "KeyError: resourceMetrics / metrics"
  | some (.arr []) => .unhandled "IndexError: list index out of range"
  | some (.arr (m :: _)) =>
    match m.lookup "value" with
    | none => .unhandled "KeyError: value"
    | some (.str s) =>
      match pyIntOfString s with
      | some v => .ok (Json.obj [("targetReplicas", Json.num (v * 2))])
      | none => .handled (invalidMetricMsg s)
    | some (.num n) => .ok (Json.obj [("targetReplicas", Json.num (n * 2))])
    | some (.bool b) => .ok (Json.obj [("targetReplicas", Json.num ((if b then 1 else 0) * 2))])
    | some _ =>
      .unhandled "TypeError: int() argument must be a string, a bytes-like object or a number"
  | some _ => .unhandled "TypeError: subscript 0 on a non-list value"

/-- Diagnostic written by src/example/zero-scaler/metric.py when the
`numPods` label is missing. -/
def noNumPodsMsg : String :=
  "No " ++ sq ++ "numPods" ++ sq ++ " label on resource being managed"

/-- metric from src/example/zero-scaler/metric.py: copies the `numPods` label
value verbatim to standard output, or writes a diagnostic and exits with
status 1 when the label is absent.  The membership test is modelled for a
dict of labels, the shape the resource metadata carries. -/
def zeroScalerMetric (spec : Json) : PyOutcome String :=
  match spec.path ["resource", "metadata"] with
  | none => .unhandled "KeyError: resource / metadata"
  | some md =>
    match md.lookup "labels" with
    | none => .unhandled "KeyError: labels"
    | some (.obj kvs) =>
      match lookupField kvs "numPods" with
      | some (.str s) => .ok s
      | some _ => .unhandled "TypeError: write() argument must be str"
      | none => .handled noNumPodsMsg
    | some _ => .unhandled "TypeError: argument is not iterable"

/-- Result of the one outbound `requests.get` call, supplied to the probe
embeddings as an oracle: a returned response whose body text is the first
field, or a raised exception with its class name and message. -/
inductive HttpResult where
  | response : String → HttpResult
  | failure : String → String → HttpResult

/-- Message CPython prints for the unbound name `HTTPError`: both probe
scripts name `HTTPError` in an except clause without importing it, so
matching any raised request exception evaluates the undefined name and
raises `NameError`, which the later clause of the same try statement cannot
catch. -/
def httpErrorNameMsg : String :=
  "NameError: name " ++ sq ++ "HTTPError" ++ sq ++ " is not defined"

/-- Python `str()` rendering used where the pod IP is interpolated into the
URL f-string; container renderings are abbreviated to their JSON form (the
rendered URL only feeds the opaque HTTP oracle). -/
def pyStrOfJson : Json → String
  | .str s => s
  | .num n => toString n
  | .bool b => if b then "True" else "False"
  | .null => "None"
  | j => jsonDump j

/-- metric from src/example/python/metric.py: reads the pod IP, performs one
GET against port 5000 path /metric, and forwards the response body text
verbatim; when the request raises, the unbound `HTTPError` name in the first
except clause turns every failure into an unhandled `NameError`. -/
def pythonMetric (pod : Json) (http : String → HttpResult) : PyOutcome String :=
  match pod.lookup "status" with
  | none => .unhandled "KeyError: status"
  | some st =>
    match st.lookup "podIP" with
    | none => .unhandled "KeyError: podIP"
    | some ipJ =>
      match http ("http://" ++ pyStrOfJson ipJ ++ ":5000/metric") with
      | .response text => .ok text
      | .failure _ _ => .unhandled httpErrorNameMsg

/-- metric from src/example/simple-pod-metrics-python/metric.py: the same
probe logic, statement for statement, as src/example/python/metric.py. -/
def simplePodMetricsMetric (pod : Json) (http : String → HttpResult) : PyOutcome String :=
  pythonMetric pod http

/-- Output record of the cpu collectors: standard output receives its JSON
rendering `{"current_replicas": r, "average_utilization": a}`.  The average
is modelled exactly as a rational; CPython computes it in binary floating
point, which is exact at the concrete value the claims check. -/
structure CpuReading where
  current_replicas : Int
  average_utilization : Rat
  deriving Repr, DecidableEq

/-- Sum of the `Value` fields over `pod_metrics_info.items()` in insertion
order, as in both cpu collectors. -/
def sumPodValues : List (String × Json) → PyOutcome Int
  | [] => .ok 0
  | (_, pod) :: rest =>
    match pod.lookup "Value" with
    | none => .unhandled "KeyError: Value"
    | some (.num v) =>
      match sumPodValues rest with
      | .ok t => .ok (v + t)
      | e => e
    | some (.bool b) =>
      match sumPodValues rest with
      | .ok t => .ok ((if b then 1 else 0) + t)
      | e => e
    | some _ => .unhandled "TypeError: unsupported operand type for +"

/-- metric from src/example/cpu/metric.py: totals the per-pod `Value` fields
and divides by the request-supplied `current_replicas`.  The division is
unguarded, so a zero replica count raises `ZeroDivisionError`; the model
requires an integer replica count, the shape the orchestrator supplies. -/
def cpuMetric (spec : Json) : PyOutcome CpuReading :=
  match spec.lookup "kubernetesMetrics" with
  | none => .unhandled "KeyError: kubernetesMetrics"
  | some (.arr []) => .unhandled "IndexError: list index out of range"
  | some (.arr (cpuMetrics :: _)) =>
    match cpuMetrics.lookup "current_replicas" with
    | none => .unhandled "KeyError: current_replicas"
    | some repJ =>
      match cpuMetrics.lookup "resource" with
      | none => .unhandled "KeyError: resource"
      | some res =>
        match res.lookup "pod_metrics_info" with
        | none => .unhandled "KeyError: pod_metrics_info"
        | some (.obj pods) =>
          match sumPodValues pods with
          | .ok total =>
            match repJ with
            | .num reps =>
              if reps = 0 then .unhandled "ZeroDivisionError: division by zero"
              else .ok ⟨reps, (total : Rat) / (reps : Rat)⟩
            | _ => .unhandled "TypeError: unsupported operand type for /"
          | .handled e => .handled e
          | .unhandled e => .unhandled e
        | some _ => .unhandled "AttributeError: items"
  | some _ => .unhandled "TypeError: subscript 0 on a non-list value"

/-- metric from src/example/k8s-metrics-cpu/metric.py: line for line the same
computation as src/example/cpu/metric.py. -/
def k8sMetricsCpuMetric (spec : Json) : PyOutcome CpuReading := cpuMetric spec

/-- main from src/example/post-scale-hook/post_scale.py as a file transform:
the arguments are the standard-input text and the previous content of
/post_scale_data.json, the result is that file's content afterwards.  When
`json.loads` raises, the process dies before `open`, leaving the file
untouched; otherwise the file is opened with mode "w+" (truncating whatever
content was there) and receives exactly `json.dumps` of the parsed
document. -/
def postScaleMain (stdin : String) (prevFile : Option String) : Option String :=
  match jsonParse stdin with
  | some scaleInfo => some (jsonDump scaleInfo)
  | none => prevFile

/-- One metric entry of the band evaluator input whose string-encoded JSON
value carries an integer-valued `available` field evaluating to `a`. -/
def entryAvailable (m : Json) (a : Int) : Prop :=
  ∃ s v av, m.lookup "value" = some (Json.str s) ∧ jsonParse s = some v ∧
    v.lookup "available" = some av ∧ pyIntOutcome av = .ok a

/-- One pod-metric binding whose `Value` field is the integer `v`. -/
def podValue (p : String × Json) (v : Int) : Prop :=
  p.2.lookup "Value" = some (Json.num v)

/-- Input whose first character, if any, is not a decimal digit — the shape
of everything that may legally follow a serialized number. -/
def noDigitHead : List Char → Bool
  | [] => true
  | c :: _ => !c.isDigit

mutual

/-- Recursion budget `parseValue` consumes on a value (used to show the
budget `jsonParse` supplies always suffices for a serialized document). -/
def jsonFuel : Json → Nat
  | .arr xs => jsonFuelElems xs + 1
  | .obj kvs => jsonFuelFields kvs + 1
  | _ => 1

/-- Recursion budget for a nonempty element list. -/
def jsonFuelElems : List Json → Nat
  | [] => 0
  | e :: es => jsonFuel e + jsonFuelElems es + 1

/-- Recursion budget for a nonempty field list. -/
def jsonFuelFields : List (String × Json) → Nat
  | [] => 0
  | (_, fv) :: fs => jsonFuel fv + jsonFuelFields fs + 1

end

/-! ### Shared lemmas about the loops -/

theorem totalAvailable_forall₂ {entries : List Json} {avs : List Int}
    (h : List.Forall₂ entryAvailable entries avs) :
    totalAvailable entries = .ok avs.sum := by
  induction h with
  | nil => rfl
  | @cons m a ms as hma _hrest ih =>
    obtain ⟨s, v, av, h1, h2, h3, h4⟩ := hma
    simp [totalAvailable, h1, h2, h3, h4, ih]

theorem sumPodValues_forall₂ {pods : List (String × Json)} {vs : List Int}
    (h : List.Forall₂ podValue pods vs) :
    sumPodValues pods = .ok vs.sum := by
  induction h with
  | nil => rfl
  | @cons p v ps vtl hpv _hrest ih =>
    obtain ⟨nm, pj⟩ := p
    simp only [podValue] at hpv
    simp [sumPodValues, hpv, ih]

/-! ### C1: hysteresis band evaluation -/

/-- C1: for every evaluation input whose metric entries' string-encoded JSON
values each carry an integer `available` field (summing to `avs.sum`) and
whose aggregate resource reports `replicas = b`, the band evaluator outputs
`targetReplicas = b - 1` when the total exceeds 5, `b + 1` when the total is
at most 0, and `b` otherwise; in particular a total of exactly 5 leaves the
target unchanged and a total of 0 increments it. -/
theorem simple_pod_hysteresis (spec : Json) (entries : List Json) (avs : List Int) (b : Int)
    (hm : spec.lookup "metrics" = some (Json.arr entries))
    (hav : List.Forall₂ entryAvailable entries avs)
    (hb : spec.path ["resource", "status", "replicas"] = some (Json.num b)) :
    simplePodMetricsEvaluate spec =
      .ok (Json.obj [("targetReplicas",
        Json.num (if 5 < avs.sum then b - 1 else if avs.sum ≤ 0 then b + 1 else b))]) := by
  have ht := totalAvailable_forall₂ hav
  simp only [simplePodMetricsEvaluate, hm, ht, simplePodMetricsAfterLoop, hb, pyIntOutcome]
  by_cases h5 : 5 < avs.sum
  · have h0 : ¬ avs.sum ≤ 0 := by omega
    simp [h5, h0]
  · by_cases h0 : avs.sum ≤ 0
    · simp [h5, h0]
    · simp [h5, h0]

/-- Witness for C1 at both boundaries: a single entry with `available = 5`
leaves the reported 4 replicas unchanged, and a single entry with
`available = 0` increments them to 5. -/
theorem simple_pod_hysteresis_witness :
    simplePodMetricsEvaluate (Json.obj
      [("metrics", Json.arr [Json.obj [("resource", Json.str "flask-metric"),
          ("value", Json.str "\x7b\"value\": 0, \"available\": 5\x7d")]]),
       ("resource", Json.obj [("status", Json.obj [("replicas", Json.num 4)])]),
       ("runType", Json.str "api")]) =
      .ok (Json.obj [("targetReplicas", Json.num 4)]) ∧
    simplePodMetricsEvaluate (Json.obj
      [("metrics", Json.arr [Json.obj [("resource", Json.str "flask-metric"),
          ("value", Json.str "\x7b\"value\": 5, \"available\": 0\x7d")]]),
       ("resource", Json.obj [("status", Json.obj [("replicas", Json.num 4)])]),
       ("runType", Json.str "api")]) =
      .ok (Json.obj [("targetReplicas", Json.num 5)]) := by
  constructor
  · have h := simple_pod_hysteresis
      (Json.obj
        [("metrics", Json.arr [Json.obj [("resource", Json.str "flask-metric"),
            ("value", Json.str "\x7b\"value\": 0, \"available\": 5\x7d")]]),
         ("resource", Json.obj [("status", Json.obj [("replicas", Json.num 4)])]),
         ("runType", Json.str "api")])
      [Json.obj [("resource", Json.str "flask-metric"),
          ("value", Json.str "\x7b\"value\": 0, \"available\": 5\x7d")]]
      [5] 4 rfl
      (List.Forall₂.cons
        ⟨"\x7b\"value\": 0, \"available\": 5\x7d",
         Json.obj [("value", Json.num 0), ("available", Json.num 5)],
         Json.num 5, rfl, rfl, rfl, rfl⟩ List.Forall₂.nil) rfl
    simpa using h
  · have h := simple_pod_hysteresis
      (Json.obj
        [("metrics", Json.arr [Json.obj [("resource", Json.str "flask-metric"),
            ("value", Json.str "\x7b\"value\": 5, \"available\": 0\x7d")]]),
         ("resource", Json.obj [("status", Json.obj [("replicas", Json.num 4)])]),
         ("runType", Json.str "api")])
      [Json.obj [("resource", Json.str "flask-metric"),
          ("value", Json.str "\x7b\"value\": 5, \"available\": 0\x7d")]]
      [0] 4 rfl
      (List.Forall₂.cons
        ⟨"\x7b\"value\": 5, \"available\": 0\x7d",
         Json.obj [("value", Json.num 5), ("available", Json.num 0)],
         Json.num 0, rfl, rfl, rfl, rfl⟩ List.Forall₂.nil) rfl
    simpa using h

/-! ### C2: extraction aggregation divides by the request-supplied count -/

/-- C2: for every extraction input with a non-empty pod-metric mapping whose
`Value` fields are the integers `vs` and a nonzero request-supplied
`current_replicas = reps`, both cpu collectors report
`average_utilization = vs.sum / reps` — the denominator is the replica count
from the request, a quantity independent of how many samples are present. -/
theorem cpu_average_by_replicas (spec first res : Json) (restL : List Json)
    (pods : List (String × Json)) (vs : List Int) (reps : Int)
    (h1 : spec.lookup "kubernetesMetrics" = some (Json.arr (first :: restL)))
    (h2 : first.lookup "current_replicas" = some (Json.num reps))
    (h3 : first.lookup "resource" = some res)
    (h4 : res.lookup "pod_metrics_info" = some (Json.obj pods))
    (h5 : List.Forall₂ podValue pods vs)
    (_hne : pods ≠ [])
    (hz : reps ≠ 0) :
    cpuMetric spec = .ok ⟨reps, (vs.sum : Rat) / (reps : Rat)⟩ ∧
    k8sMetricsCpuMetric spec = .ok ⟨reps, (vs.sum : Rat) / (reps : Rat)⟩ := by
  have hs := sumPodValues_forall₂ h5
  have main : cpuMetric spec = .ok ⟨reps, (vs.sum : Rat) / (reps : Rat)⟩ := by
    simp only [cpuMetric, h1, h2, h3, h4, hs]
    simp [hz]
  exact ⟨main, by simpa only [k8sMetricsCpuMetric] using main⟩

/-- Witness for C2: one pod with `Value = 4` and `current_replicas = 1`
yields an average utilization of exactly 4. -/
theorem cpu_average_by_replicas_witness :
    cpuMetric (Json.obj [("kubernetesMetrics", Json.arr [Json.obj
      [("current_replicas", Json.num 1),
       ("resource", Json.obj [("pod_metrics_info",
          Json.obj [("flask-metric-697794dd85-bsttm",
            Json.obj [("Value", Json.num 4)])])])]])]) =
      .ok ⟨1, (4 : Rat)⟩ := by
  have h := cpu_average_by_replicas
    (Json.obj [("kubernetesMetrics", Json.arr [Json.obj
      [("current_replicas", Json.num 1),
       ("resource", Json.obj [("pod_metrics_info",
          Json.obj [("flask-metric-697794dd85-bsttm",
            Json.obj [("Value", Json.num 4)])])])]])])
    (Json.obj
      [("current_replicas", Json.num 1),
       ("resource", Json.obj [("pod_metrics_info",
          Json.obj [("flask-metric-697794dd85-bsttm",
            Json.obj [("Value", Json.num 4)])])])])
    (Json.obj [("pod_metrics_info",
        Json.obj [("flask-metric-697794dd85-bsttm", Json.obj [("Value", Json.num 4)])])])
    [] [("flask-metric-697794dd85-bsttm", Json.obj [("Value", Json.num 4)])] [4] 1
    rfl rfl rfl rfl (List.Forall₂.cons rfl List.Forall₂.nil) (by simp) (by norm_num)
  have h4 : (([4] : List Int).sum : Rat) / ((1 : Int) : Rat) = 4 := by norm_num
  simpa [h4] using h.1

/-! ### C3: the band variant in src/example/python reads an unassigned local -/

/-- C3 failing-input theorem: on well-formed inputs in each of the three
bands (total available 9, 3 and 0 against one metric entry), the
src/example/python band evaluator variant dies with `UnboundLocalError`
instead of reading a baseline replica count from the input: its
`target_replica_count` accumulator is adjusted and emitted without ever
being assigned. -/
theorem python_evaluate_unbound_local :
    pythonEvaluate (Json.arr [Json.obj [("pod", Json.str "p"), ("available", Json.num 9)]]) =
      .unhandled unboundMsg ∧
    pythonEvaluate (Json.arr [Json.obj [("pod", Json.str "p"), ("available", Json.num 3)]]) =
      .unhandled unboundMsg ∧
    pythonEvaluate (Json.arr [Json.obj [("pod", Json.str "p"), ("available", Json.num 0)]]) =
      .unhandled unboundMsg ∧
    (PyOutcome.unhandled unboundMsg : PyOutcome Json).exitCode = 1 ∧
    (PyOutcome.unhandled unboundMsg : PyOutcome Json).stdoutData = none :=
  ⟨rfl, rfl, rfl, rfl, rfl⟩

/-! ### C4: remote-probe failure reporting -/

/-- C4 failing-input theorem: whatever exception the probe request raises —
the connection-refused transport failure included — both remote-probe
collectors die with the unhandled `NameError` for the unbound `HTTPError`
name, so the diagnostic stream never receives either class-specific prefix;
the exit status is 1 and standard output stays empty. -/
theorem remote_probe_nameerror (excName msg : String) :
    pythonMetric (Json.obj [("status", Json.obj [("podIP", Json.str "172.17.0.2")])])
        (fun _ => HttpResult.failure excName msg) = .unhandled httpErrorNameMsg ∧
    simplePodMetricsMetric (Json.obj [("status", Json.obj [("podIP", Json.str "172.17.0.2")])])
        (fun _ => HttpResult.failure excName msg) = .unhandled httpErrorNameMsg ∧
    (PyOutcome.unhandled httpErrorNameMsg : PyOutcome String).exitCode = 1 ∧
    (PyOutcome.unhandled httpErrorNameMsg : PyOutcome String).stdoutData = none ∧
    (PyOutcome.unhandled httpErrorNameMsg : PyOutcome String).stderrText =
      some httpErrorNameMsg :=
  ⟨rfl, rfl, rfl, rfl, rfl⟩

/-! ### C5: evaluator output key spelling -/

/-- C5 failing-input theorem: the ratio evaluator succeeds on the
documented single-entry input and writes its sole output under the key
`target_replicas`, which is not the key `targetReplicas` the protocol
requires of every evaluator. -/
theorem scale_on_tweet_key_spelling :
    scaleOnTweetEvaluate (Json.arr [Json.obj [("resource", Json.str "hello-kubernetes"),
        ("value", Json.str "\x7b\"up\": 3,\"down\": 2\x7d")]]) =
      .ok (Json.obj [("target_replicas", Json.num 1)]) ∧
    (Json.obj [("target_replicas", Json.num 1)]).lookup "targetReplicas" = none :=
  ⟨rfl, rfl⟩

/-! ### C6: ratio evaluator computes up - down with no clamping -/

/-- C6: for every single-entry input whose string-encoded value carries
integer-parseable `up` and `down` fields, the ratio evaluator outputs the
difference `up - down` directly — no baseline enters and no clamping is
applied, so zero and negative targets are produced exactly. -/
theorem scale_on_tweet_up_minus_down (m ratio : Json) (s : String) (up down : Int)
    (hv : m.lookup "value" = some (Json.str s))
    (hp : jsonParse s = some ratio)
    (hu : ∃ uj, ratio.lookup "up" = some uj ∧ pyIntOutcome uj = .ok up)
    (hd : ∃ dj, ratio.lookup "down" = some dj ∧ pyIntOutcome dj = .ok down) :
    scaleOnTweetEvaluate (Json.arr [m]) =
      .ok (Json.obj [("target_replicas", Json.num (up - down))]) := by
  obtain ⟨uj, hu1, hu2⟩ := hu
  obtain ⟨dj, hd1, hd2⟩ := hd
  simp [scaleOnTweetEvaluate, hv, hp, hu1, hu2, hd1, hd2]

/-- Witness for C6: `up = 3, down = 5` yields the negative target `-2`. -/
theorem scale_on_tweet_up_minus_down_witness :
    scaleOnTweetEvaluate (Json.arr [Json.obj [("resource", Json.str "hello-kubernetes"),
        ("value", Json.str "\x7b\"up\": 3, \"down\": 5\x7d")]]) =
      .ok (Json.obj [("target_replicas", Json.num (-2))]) := by
  have h := scale_on_tweet_up_minus_down
    (Json.obj [("resource", Json.str "hello-kubernetes"),
        ("value", Json.str "\x7b\"up\": 3, \"down\": 5\x7d")])
    (Json.obj [("up", Json.num 3), ("down", Json.num 5)])
    "\x7b\"up\": 3, \"down\": 5\x7d" 3 5
    rfl rfl ⟨Json.num 3, rfl, rfl⟩ ⟨Json.num 5, rfl, rfl⟩
  simpa using h

/-! ### C7: direct-multiplier evaluator -/

/-- C7: for every input whose first metric value is the string `s`, the
direct-multiplier evaluator writes `{"targetReplicas": 2 * v}` and exits 0
exactly when `int(s)` parses to `v`; and exactly when `s` is not
integer-parseable it writes the `InvalidMetricValueError` diagnostic to the
error stream, writes nothing to standard output, and exits with status 1. -/
theorem direct_multiplier (spec m : Json) (rest : List Json) (s : String)
    (hm : spec.path ["resourceMetrics", "metrics"] = some (Json.arr (m :: rest)))
    (hv : m.lookup "value" = some (Json.str s)) :
    pythonCustomAutoscalerEvaluate spec =
      (match pyIntOfString s with
       | some v => PyOutcome.ok (Json.obj [("targetReplicas", Json.num (2 * v))])
       | none => PyOutcome.handled (invalidMetricMsg s)) ∧
    (∀ v, pyIntOfString s = some v → (pythonCustomAutoscalerEvaluate spec).exitCode = 0) ∧
    (pyIntOfString s = none →
      (pythonCustomAutoscalerEvaluate spec).exitCode = 1 ∧
      (pythonCustomAutoscalerEvaluate spec).stdoutData = none ∧
      (pythonCustomAutoscalerEvaluate spec).stderrText = some (invalidMetricMsg s)) := by
  have base : pythonCustomAutoscalerEvaluate spec =
      (match pyIntOfString s with
       | some v => PyOutcome.ok (Json.obj [("targetReplicas", Json.num (2 * v))])
       | none => PyOutcome.handled (invalidMetricMsg s)) := by
    simp only [pythonCustomAutoscalerEvaluate, hm, hv]
    cases h : pyIntOfString s with
    | none => simp [h]
    | some v => simp [h, Int.mul_comm]
  refine ⟨base, fun v hv2 => ?_, fun hn => ?_⟩
  · rw [base, hv2]
    rfl
  · rw [base, hn]
    exact ⟨rfl, rfl, rfl⟩

/-- Witness for C7: the value `"3"` produces `{"targetReplicas": 6}` with
exit status 0, and the value `"abc"` produces the diagnostic with exit
status 1 and empty standard output. -/
theorem direct_multiplier_witness :
    pythonCustomAutoscalerEvaluate (Json.obj [("resourceMetrics", Json.obj
        [("metrics", Json.arr [Json.obj [("resource", Json.str "hello-kubernetes"),
          ("value", Json.str "3")]])])]) =
      .ok (Json.obj [("targetReplicas", Json.num 6)]) ∧
    (pythonCustomAutoscalerEvaluate (Json.obj [("resourceMetrics", Json.obj
        [("metrics", Json.arr [Json.obj [("resource", Json.str "hello-kubernetes"),
          ("value", Json.str "abc")]])])])).exitCode = 1 := by
  constructor
  · have h := direct_multiplier (Json.obj [("resourceMetrics", Json.obj
        [("metrics", Json.arr [Json.obj [("resource", Json.str "hello-kubernetes"),
          ("value", Json.str "3")]])])])
      (Json.obj [("resource", Json.str "hello-kubernetes"), ("value", Json.str "3")])
      [] "3" rfl rfl
    simpa using h.1
  · have h := direct_multiplier (Json.obj [("resourceMetrics", Json.obj
        [("metrics", Json.arr [Json.obj [("resource", Json.str "hello-kubernetes"),
          ("value", Json.str "abc")]])])])
      (Json.obj [("resource", Json.str "hello-kubernetes"), ("value", Json.str "abc")])
      [] "abc" rfl rfl
    exact (h.2.2 rfl).1

/-! ### C8: missing numPods label -/

/-- C8: for every extraction input whose resource labels form a mapping, the
collector copies the `numPods` label value verbatim to standard output when
the key is present, and when it is absent writes a descriptive diagnostic to
standard error, writes nothing to standard output, and exits with
status 1. -/
theorem zero_scaler_num_pods (spec md : Json) (kvs : List (String × Json))
    (hmd : spec.path ["resource", "metadata"] = some md)
    (hl : md.lookup "labels" = some (Json.obj kvs)) :
    (lookupField kvs "numPods" = none →
       zeroScalerMetric spec = .handled noNumPodsMsg ∧
       (zeroScalerMetric spec).exitCode = 1 ∧
       (zeroScalerMetric spec).stdoutData = none ∧
       (zeroScalerMetric spec).stderrText = some noNumPodsMsg) ∧
    (∀ s : String, lookupField kvs "numPods" = some (Json.str s) →
       zeroScalerMetric spec = .ok s) := by
  constructor
  · intro hno
    have he : zeroScalerMetric spec = .handled noNumPodsMsg := by
      simp [zeroScalerMetric, hmd, hl, hno]
    exact ⟨he, by rw [he]; rfl, by rw [he]; rfl, by rw [he]; rfl⟩
  · intro s hyes
    simp [zeroScalerMetric, hmd, hl, hyes]

/-- Witness for C8: a resource without the label fails with the diagnostic
and exit status 1, and a resource with `numPods = "3"` emits `3`. -/
theorem zero_scaler_num_pods_witness :
    zeroScalerMetric (Json.obj [("resource", Json.obj [("metadata", Json.obj
        [("name", Json.str "hello-kubernetes"), ("labels", Json.obj [])])])]) =
      .handled noNumPodsMsg ∧
    zeroScalerMetric (Json.obj [("resource", Json.obj [("metadata", Json.obj
        [("name", Json.str "hello-kubernetes"),
         ("labels", Json.obj [("numPods", Json.str "3")])])])]) =
      .ok "3" := by
  constructor
  · exact ((zero_scaler_num_pods
      (Json.obj [("resource", Json.obj [("metadata", Json.obj
          [("name", Json.str "hello-kubernetes"), ("labels", Json.obj [])])])])
      (Json.obj [("name", Json.str "hello-kubernetes"), ("labels", Json.obj [])])
      [] rfl rfl).1 rfl).1
  · exact (zero_scaler_num_pods
      (Json.obj [("resource", Json.obj [("metadata", Json.obj
          [("name", Json.str "hello-kubernetes"),
           ("labels", Json.obj [("numPods", Json.str "3")])])])])
      (Json.obj [("name", Json.str "hello-kubernetes"),
          ("labels", Json.obj [("numPods", Json.str "3")])])
      [("numPods", Json.str "3")] rfl rfl).2 "3" rfl

/-! ### C10: the average is total only when current_replicas is nonzero -/

/-- C10: the division in the cpu collectors is unguarded — with
`current_replicas = 0` the collector dies with `ZeroDivisionError` and
produces no reading, while under the precondition `current_replicas ≠ 0`
the division-error branch is unreachable and a reading is produced. -/
theorem cpu_zero_replicas (spec first res : Json) (restL : List Json)
    (pods : List (String × Json)) (vs : List Int) (reps : Int)
    (h1 : spec.lookup "kubernetesMetrics" = some (Json.arr (first :: restL)))
    (h2 : first.lookup "current_replicas" = some (Json.num reps))
    (h3 : first.lookup "resource" = some res)
    (h4 : res.lookup "pod_metrics_info" = some (Json.obj pods))
    (h5 : List.Forall₂ podValue pods vs) :
    (reps = 0 →
       cpuMetric spec = .unhandled "ZeroDivisionError: division by zero" ∧
       k8sMetricsCpuMetric spec = .unhandled "ZeroDivisionError: division by zero" ∧
       (cpuMetric spec).stdoutData = none) ∧
    (reps ≠ 0 →
       cpuMetric spec = .ok ⟨reps, (vs.sum : Rat) / (reps : Rat)⟩ ∧
       cpuMetric spec ≠ .unhandled "ZeroDivisionError: division by zero") := by
  have hs := sumPodValues_forall₂ h5
  constructor
  · intro hz
    have he : cpuMetric spec = .unhandled "ZeroDivisionError: division by zero" := by
      simp [cpuMetric, h1, h2, h3, h4, hs, hz]
    exact ⟨he, by simpa only [k8sMetricsCpuMetric] using he, by rw [he]; rfl⟩
  · intro hz
    have ho : cpuMetric spec = .ok ⟨reps, (vs.sum : Rat) / (reps : Rat)⟩ := by
      simp only [cpuMetric, h1, h2, h3, h4, hs]
      simp [hz]
    refine ⟨ho, ?_⟩
    rw [ho]
    intro hcontra
    exact PyOutcome.noConfusion hcontra

/-- Witness for C10: the one-pod request with `current_replicas = 0` raises
the division error, and the same request with `current_replicas = 1`
produces a reading. -/
theorem cpu_zero_replicas_witness :
    cpuMetric (Json.obj [("kubernetesMetrics", Json.arr [Json.obj
      [("current_replicas", Json.num 0),
       ("resource", Json.obj [("pod_metrics_info",
          Json.obj [("p", Json.obj [("Value", Json.num 4)])])])]])]) =
      .unhandled "ZeroDivisionError: division by zero" ∧
    cpuMetric (Json.obj [("kubernetesMetrics", Json.arr [Json.obj
      [("current_replicas", Json.num 1),
       ("resource", Json.obj [("pod_metrics_info",
          Json.obj [("p", Json.obj [("Value", Json.num 4)])])])]])]) ≠
      .unhandled "ZeroDivisionError: division by zero" := by
  constructor
  · exact ((cpu_zero_replicas
      (Json.obj [("kubernetesMetrics", Json.arr [Json.obj
        [("current_replicas", Json.num 0),
         ("resource", Json.obj [("pod_metrics_info",
            Json.obj [("p", Json.obj [("Value", Json.num 4)])])])]])])
      (Json.obj
        [("current_replicas", Json.num 0),
         ("resource", Json.obj [("pod_metrics_info",
            Json.obj [("p", Json.obj [("Value", Json.num 4)])])])])
      (Json.obj [("pod_metrics_info", Json.obj [("p", Json.obj [("Value", Json.num 4)])])])
      [] [("p", Json.obj [("Value", Json.num 4)])] [4] 0
      rfl rfl rfl rfl (List.Forall₂.cons rfl List.Forall₂.nil)).1 rfl).1
  · exact ((cpu_zero_replicas
      (Json.obj [("kubernetesMetrics", Json.arr [Json.obj
        [("current_replicas", Json.num 1),
         ("resource", Json.obj [("pod_metrics_info",
            Json.obj [("p", Json.obj [("Value", Json.num 4)])])])]])])
      (Json.obj
        [("current_replicas", Json.num 1),
         ("resource", Json.obj [("pod_metrics_info",
            Json.obj [("p", Json.obj [("Value", Json.num 4)])])])])
      (Json.obj [("pod_metrics_info", Json.obj [("p", Json.obj [("Value", Json.num 4)])])])
      [] [("p", Json.obj [("Value", Json.num 4)])] [4] 1
      rfl rfl rfl rfl (List.Forall₂.cons rfl List.Forall₂.nil)).2 (by norm_num)).2

/-! ### Round-trip lemmas for the serializer-parser pair (claim C9) -/

theorem skipWs_cons_of_not_ws {c : Char} (h : isJsonWs c = false) (cs : List Char) :
    skipWs (c :: cs) = c :: cs := by
  simp [skipWs, List.dropWhile_cons, h]

theorem skipWs_cons_of_ws {c : Char} (h : isJsonWs c = true) (cs : List Char) :
    skipWs (c :: cs) = skipWs cs := by
  simp [skipWs, List.dropWhile_cons, h]

theorem isDigit_bounds {c : Char} (h : c.isDigit = true) :
    48 ≤ c.toNat ∧ c.toNat ≤ 57 := by
  simp [Char.isDigit] at h
  exact ⟨h.1, h.2⟩

theorem char_ne_of_toNat (c d : Char) (n : Nat) (hd : d.toNat = n) (h : c.toNat ≠ n) :
    c ≠ d := fun he => h (he ▸ hd)

theorem digit_head_facts {c : Char} (h : c.isDigit = true) :
    isJsonWs c = false ∧ c ≠ ']' ∧ c ≠ '-' ∧ c ≠ lbrace ∧ c ≠ '[' ∧ c ≠ '"' ∧
      c ≠ 'f' ∧ c ≠ 't' ∧ c ≠ 'n' := by
  obtain ⟨h1, h2⟩ := isDigit_bounds h
  have hsp : c ≠ ' ' := char_ne_of_toNat c ' ' 32 rfl (by omega)
  have htb : c ≠ '\t' := char_ne_of_toNat c '\t' 9 rfl (by omega)
  have hnl : c ≠ '\n' := char_ne_of_toNat c '\n' 10 rfl (by omega)
  have hcr : c ≠ '\r' := char_ne_of_toNat c '\r' 13 rfl (by omega)
  refine ⟨by simp [isJsonWs, hsp, htb, hnl, hcr], ?_, ?_, ?_, ?_, ?_, ?_, ?_, ?_⟩
  · exact char_ne_of_toNat c ']' 93 rfl (by omega)
  · exact char_ne_of_toNat c '-' 45 rfl (by omega)
  · exact char_ne_of_toNat c lbrace 123 rfl (by omega)
  · exact char_ne_of_toNat c '[' 91 rfl (by omega)
  · exact char_ne_of_toNat c '"' 34 rfl (by omega)
  · exact char_ne_of_toNat c 'f' 102 rfl (by omega)
  · exact char_ne_of_toNat c 't' 116 rfl (by omega)
  · exact char_ne_of_toNat c 'n' 110 rfl (by omega)

theorem digitChar_isDigit {d : Nat} (h : d < 10) :
    (Char.ofNat (48 + d)).isDigit = true := by
  interval_cases d <;> decide

theorem digitChar_toNat {d : Nat} (h : d < 10) :
    (Char.ofNat (48 + d)).toNat = 48 + d := by
  interval_cases d <;> decide

theorem parseDigits_stop {rest : List Char} (h : noDigitHead rest = true) (acc : Nat) :
    parseDigits acc rest = (acc, rest) := by
  cases rest with
  | nil => rfl
  | cons c cs =>
    simp [noDigitHead] at h
    simp [parseDigits, h]

theorem parseDigits_step {d : Nat} (hd : d < 10) (acc : Nat) (rest : List Char) :
    parseDigits acc (Char.ofNat (48 + d) :: rest) = parseDigits (acc * 10 + d) rest := by
  simp [parseDigits, digitChar_isDigit hd, digitChar_toNat hd]

theorem natToChars_eq_small {n : Nat} (h : n < 10) :
    natToChars n = [Char.ofNat (48 + n)] := by
  rw [natToChars]
  simp [h]

theorem natToChars_eq_big {n : Nat} (h : ¬ n < 10) :
    natToChars n = natToChars (n / 10) ++ [Char.ofNat (48 + n % 10)] := by
  conv_lhs => rw [natToChars]
  simp [h]

theorem parseDigits_natToChars :
    ∀ n acc rest, parseDigits acc (natToChars n ++ rest) =
      parseDigits (acc * 10 ^ (natToChars n).length + n) rest := by
  intro n
  induction n using Nat.strong_induction_on with
  | _ n ih =>
    intro acc rest
    by_cases h : n < 10
    · rw [natToChars_eq_small h]
      simp [parseDigits_step h]
    · rw [natToChars_eq_big h, List.append_assoc,
        ih (n / 10) (Nat.div_lt_self (by omega) (by omega)) acc _,
        List.singleton_append, parseDigits_step (Nat.mod_lt n (by omega))]
      congr 1
      rw [List.length_append, List.length_singleton, pow_succ, ← mul_assoc]
      generalize acc * 10 ^ (natToChars (n / 10)).length = A
      omega

theorem natToChars_head :
    ∀ n, ∃ d tl, d < 10 ∧ natToChars n = Char.ofNat (48 + d) :: tl := by
  intro n
  induction n using Nat.strong_induction_on with
  | _ n ih =>
    by_cases h : n < 10
    · exact ⟨n, [], h, by rw [natToChars_eq_small h]⟩
    · obtain ⟨d, tl, hd, heq⟩ := ih (n / 10) (Nat.div_lt_self (by omega) (by omega))
      exact ⟨d, tl ++ [Char.ofNat (48 + n % 10)], hd,
        by rw [natToChars_eq_big h, heq]; rfl⟩

theorem parseNat_natToChars (n : Nat) (rest : List Char) (hr : noDigitHead rest = true) :
    parseNat (natToChars n ++ rest) = some (n, rest) := by
  obtain ⟨d, tl, hd, heq⟩ := natToChars_head n
  have hc : (Char.ofNat (48 + d)).isDigit = true := digitChar_isDigit hd
  rw [heq, List.cons_append, parseNat]
  simp only [hc, if_true]
  rw [← List.cons_append, ← heq, parseDigits_natToChars, parseDigits_stop hr]
  simp

theorem parseNum_intToChars (i : Int) (rest : List Char) (hr : noDigitHead rest = true) :
    parseNum (intToChars i ++ rest) = some (i, rest) := by
  by_cases hneg : i < 0
  · rw [intToChars, if_pos hneg, List.cons_append, parseNum]
    rw [if_pos rfl, parseNat_natToChars i.natAbs rest hr]
    have hi : -|i| = i := by rw [abs_of_neg hneg]; ring
    simp [hi]
  · rw [intToChars, if_neg hneg]
    obtain ⟨d, tl, hd, heq⟩ := natToChars_head i.toNat
    have hc := digitChar_isDigit hd
    have hnm : Char.ofNat (48 + d) ≠ '-' := (digit_head_facts hc).2.2.1
    rw [heq, List.cons_append, parseNum]
    simp only [hnm, if_false]
    rw [← List.cons_append, ← heq, parseNat_natToChars _ _ hr]
    have hi : (i.toNat : Int) = i := by omega
    simp [hi]

theorem hexVal_hexDigit {m : Nat} (h : m < 16) : hexVal (hexDigit m) = some m := by
  interval_cases m <;> decide

theorem hexVal_zero : hexVal '0' = some 0 := by decide

theorem parseStringBody_escape :
    ∀ (cs rest : List Char),
      parseStringBody (cs.flatMap escapeChar ++ '"' :: rest) = some (cs, rest) := by
  intro cs
  induction cs with
  | nil =>
    intro rest
    rw [show ([] : List Char).flatMap escapeChar ++ '"' :: rest = '"' :: rest by simp]
    rw [parseStringBody.eq_def]
    simp
  | cons c tl ih =>
    intro rest
    by_cases hq : c = '"'
    · subst hq
      rw [show ('"' :: tl).flatMap escapeChar ++ '"' :: rest =
          '\\' :: '"' :: (tl.flatMap escapeChar ++ '"' :: rest) by simp [escapeChar]]
      rw [parseStringBody.eq_def]
      simp [ih rest]
    · by_cases hb : c = '\\'
      · subst hb
        rw [show ('\\' :: tl).flatMap escapeChar ++ '"' :: rest =
            '\\' :: '\\' :: (tl.flatMap escapeChar ++ '"' :: rest) by simp [escapeChar]]
        rw [parseStringBody.eq_def]
        simp [ih rest]
      · by_cases hctl : c.toNat < 32
        · have h16 : c.toNat % 16 < 16 := Nat.mod_lt _ (by omega)
          have hdiv : c.toNat / 16 < 16 := by omega
          have hval : c.toNat / 16 * 16 + c.toNat % 16 = c.toNat := by omega
          rw [show (c :: tl).flatMap escapeChar ++ '"' :: rest =
              '\\' :: 'u' :: '0' :: '0' :: hexDigit (c.toNat / 16) ::
                hexDigit (c.toNat % 16) :: (tl.flatMap escapeChar ++ '"' :: rest) by
            simp [escapeChar, hq, hb, hctl]]
          rw [parseStringBody.eq_def]
          simp [hexVal_hexDigit h16, hexVal_hexDigit hdiv, hexVal_zero, hval,
            Char.ofNat_toNat, ih rest]
        · rw [show (c :: tl).flatMap escapeChar ++ '"' :: rest =
              c :: (tl.flatMap escapeChar ++ '"' :: rest) by simp [escapeChar, hq, hb, hctl]]
          rw [parseStringBody.eq_def]
          simp [hq, hb, hctl, ih rest]

theorem parseValue_ws (fuel : Nat) {c : Char} (h : isJsonWs c = true) (cs : List Char) :
    parseValue fuel (c :: cs) = parseValue fuel cs := by
  cases fuel with
  | zero => rfl
  | succ fuel =>
    simp only [parseValue]
    rw [skipWs_cons_of_ws h]

theorem parseElems_ws (fuel : Nat) {c : Char} (h : isJsonWs c = true) (cs : List Char) :
    parseElems fuel (c :: cs) = parseElems fuel cs := by
  cases fuel with
  | zero => rfl
  | succ fuel =>
    simp only [parseElems]
    rw [parseValue_ws fuel h]

theorem parseFields_ws (fuel : Nat) {c : Char} (h : isJsonWs c = true) (cs : List Char) :
    parseFields fuel (c :: cs) = parseFields fuel cs := by
  cases fuel with
  | zero => rfl
  | succ fuel =>
    simp only [parseFields]
    rw [skipWs_cons_of_ws h]

theorem jsonFuel_pos (j : Json) : 1 ≤ jsonFuel j := by
  cases j <;> simp [jsonFuel]

theorem jsonFuelElems_pos {xs : List Json} (h : xs ≠ []) : 1 ≤ jsonFuelElems xs := by
  cases xs with
  | nil => exact absurd rfl h
  | cons x tl => simp [jsonFuelElems]

theorem jsonFuelFields_pos {kvs : List (String × Json)} (h : kvs ≠ []) :
    1 ≤ jsonFuelFields kvs := by
  cases kvs with
  | nil => exact absurd rfl h
  | cons f tl =>
    obtain ⟨k, v⟩ := f
    simp [jsonFuelFields]

theorem dumpChars_head (j : Json) :
    ∃ c tl, dumpChars j = c :: tl ∧ isJsonWs c = false ∧ c ≠ ']' := by
  cases j with
  | null => exact ⟨'n', _, by simp only [dumpChars]; rfl, by decide, by decide⟩
  | bool b =>
    cases b with
    | true => exact ⟨'t', _, by simp only [dumpChars]; rfl, by decide, by decide⟩
    | false => exact ⟨'f', _, by simp only [dumpChars]; rfl, by decide, by decide⟩
  | num i =>
    by_cases hneg : i < 0
    · exact ⟨'-', _, by simp only [dumpChars]; rw [intToChars, if_pos hneg],
        by decide, by decide⟩
    · obtain ⟨d, tl, hd, heq⟩ := natToChars_head i.toNat
      have hfacts := digit_head_facts (digitChar_isDigit hd)
      exact ⟨Char.ofNat (48 + d), tl,
        by simp only [dumpChars]; rw [intToChars, if_neg hneg, heq],
        hfacts.1, hfacts.2.1⟩
  | str s =>
    exact ⟨'"', _, by simp only [dumpChars, dumpString]; rw [List.cons_append],
      by decide, by decide⟩
  | arr xs => exact ⟨'[', _, by simp only [dumpChars]; rfl, by decide, by decide⟩
  | obj kvs => exact ⟨lbrace, _, by simp only [dumpChars]; rfl, by decide, by decide⟩

theorem dumpElems_cons_eq (x : Json) (tl : List Json) :
    ∃ suffix, dumpElems (x :: tl) = dumpChars x ++ suffix := by
  cases tl with
  | nil => exact ⟨[], by simp only [dumpElems]; simp⟩
  | cons y t => exact ⟨_, by simp only [dumpElems]; rfl⟩

theorem dumpFields_head (f : String × Json) (tl : List (String × Json)) :
    ∃ suf, dumpFields (f :: tl) = '"' :: suf := by
  obtain ⟨k, v⟩ := f
  cases tl with
  | nil =>
    exact ⟨_, by simp only [dumpFields, dumpString]; rw [List.cons_append]; rfl⟩
  | cons g t =>
    exact ⟨_, by simp only [dumpFields, dumpString]; rw [List.cons_append]; rfl⟩

theorem parse_dump_main :
    ∀ fuel : Nat,
      (∀ (j : Json) (rest : List Char), jsonFuel j ≤ fuel → noDigitHead rest = true →
        parseValue fuel (dumpChars j ++ rest) = some (j, rest)) ∧
      (∀ (xs : List Json) (rest : List Char), xs ≠ [] → jsonFuelElems xs ≤ fuel →
        parseElems fuel (dumpElems xs ++ ']' :: rest) = some (xs, rest)) ∧
      (∀ (kvs : List (String × Json)) (rest : List Char), kvs ≠ [] →
          jsonFuelFields kvs ≤ fuel →
        parseFields fuel (dumpFields kvs ++ rbrace :: rest) = some (kvs, rest)) := by
  intro fuel
  induction fuel with
  | zero =>
    refine ⟨?_, ?_, ?_⟩
    · intro j rest hf _
      have := jsonFuel_pos j
      omega
    · intro xs rest hne hf
      have := jsonFuelElems_pos hne
      omega
    · intro kvs rest hne hf
      have := jsonFuelFields_pos hne
      omega
  | succ fuel ih =>
    obtain ⟨ihv, ihe, ihf⟩ := ih
    refine ⟨?_, ?_, ?_⟩
    · intro j rest hf hr
      cases j with
      | null =>
        rw [show dumpChars Json.null ++ rest = 'n' :: 'u' :: 'l' :: 'l' :: rest by
          simp only [dumpChars]; rfl]
        simp only [parseValue]
        rw [skipWs_cons_of_not_ws (by decide)]
        simp
      | bool b =>
        cases b with
        | true =>
          rw [show dumpChars (Json.bool true) ++ rest = 't' :: 'r' :: 'u' :: 'e' :: rest by
            simp only [dumpChars]; rfl]
          simp only [parseValue]
          rw [skipWs_cons_of_not_ws (by decide)]
          simp
        | false =>
          rw [show dumpChars (Json.bool false) ++ rest =
              'f' :: 'a' :: 'l' :: 's' :: 'e' :: rest by simp only [dumpChars]; rfl]
          simp only [parseValue]
          rw [skipWs_cons_of_not_ws (by decide)]
          simp
      | num i =>
        by_cases hneg : i < 0
        · rw [show dumpChars (Json.num i) ++ rest = '-' :: (natToChars i.natAbs ++ rest) by
            simp only [dumpChars]; rw [intToChars, if_pos hneg]; rfl]
          simp only [parseValue]
          rw [skipWs_cons_of_not_ws (by decide)]
          have hpn : parseNum ('-' :: (natToChars i.natAbs ++ rest)) = some (i, rest) := by
            have h2 := parseNum_intToChars i rest hr
            rw [intToChars, if_pos hneg, List.cons_append] at h2
            exact h2
          simp [hpn, show ('-' : Char) ≠ lbrace by decide]
        · obtain ⟨d, tl0, hd, heq⟩ := natToChars_head i.toNat
          have hfacts := digit_head_facts (digitChar_isDigit hd)
          rw [show dumpChars (Json.num i) ++ rest = Char.ofNat (48 + d) :: (tl0 ++ rest) by
            simp only [dumpChars]; rw [intToChars, if_neg hneg, heq]; rfl]
          simp only [parseValue]
          rw [skipWs_cons_of_not_ws hfacts.1]
          have hpn : parseNum (Char.ofNat (48 + d) :: (tl0 ++ rest)) = some (i, rest) := by
            have h2 := parseNum_intToChars i rest hr
            rw [intToChars, if_neg hneg, heq, List.cons_append] at h2
            exact h2
          simp [hfacts.2.2.2.2.2.2.2.2, hfacts.2.2.2.2.2.2.2.1, hfacts.2.2.2.2.2.2.1,
            hfacts.2.2.2.2.2.1, hfacts.2.2.2.2.1, hfacts.2.2.2.1, hpn]
      | str s =>
        rw [show dumpChars (Json.str s) ++ rest =
            '"' :: (s.data.flatMap escapeChar ++ '"' :: rest) by
          simp only [dumpChars, dumpString]; simp]
        simp only [parseValue]
        rw [skipWs_cons_of_not_ws (by decide)]
        simp [parseStringBody_escape s.data rest, show String.mk s.data = s from rfl]
      | arr xs =>
        cases xs with
        | nil =>
          rw [show dumpChars (Json.arr []) ++ rest = '[' :: ']' :: rest by
            simp only [dumpChars, dumpElems]; rfl]
          simp only [parseValue]
          rw [skipWs_cons_of_not_ws (by decide)]
          have hsk : skipWs (']' :: rest) = ']' :: rest :=
            skipWs_cons_of_not_ws (by decide) rest
          simp [hsk]
        | cons x tl =>
          obtain ⟨suf, hsuf⟩ := dumpElems_cons_eq x tl
          obtain ⟨c0, t0, hc0, hws0, hbr0⟩ := dumpChars_head x
          have hten : jsonFuelElems (x :: tl) ≤ fuel := by
            simp only [jsonFuel] at hf
            omega
          have he := ihe (x :: tl) rest (by simp) hten
          have hrw : dumpElems (x :: tl) ++ ']' :: rest =
              c0 :: (t0 ++ (suf ++ ']' :: rest)) := by
            rw [hsuf, hc0]
            simp [List.append_assoc]
          rw [show dumpChars (Json.arr (x :: tl)) ++ rest =
              '[' :: (dumpElems (x :: tl) ++ ']' :: rest) by
            simp only [dumpChars]; simp]
          simp only [parseValue]
          rw [skipWs_cons_of_not_ws (by decide)]
          rw [hrw] at he ⊢
          have hsk : skipWs (c0 :: (t0 ++ (suf ++ ']' :: rest))) =
              c0 :: (t0 ++ (suf ++ ']' :: rest)) := skipWs_cons_of_not_ws hws0 _
          simp [hsk, hbr0, he]
      | obj kvs =>
        cases kvs with
        | nil =>
          rw [show dumpChars (Json.obj []) ++ rest = lbrace :: rbrace :: rest by
            simp only [dumpChars, dumpFields]; rfl]
          simp only [parseValue]
          rw [skipWs_cons_of_not_ws (by decide)]
          have hsk : skipWs (rbrace :: rest) = rbrace :: rest :=
            skipWs_cons_of_not_ws (by decide) rest
          simp [hsk, show lbrace ≠ 'n' by decide, show lbrace ≠ 't' by decide,
            show lbrace ≠ 'f' by decide, show lbrace ≠ '"' by decide,
            show lbrace ≠ '[' by decide]
        | cons f tl =>
          obtain ⟨suf, hsuf⟩ := dumpFields_head f tl
          have hften : jsonFuelFields (f :: tl) ≤ fuel := by
            simp only [jsonFuel] at hf
            omega
          have hfe := ihf (f :: tl) rest (by simp) hften
          have hrw : dumpFields (f :: tl) ++ rbrace :: rest =
              '"' :: (suf ++ rbrace :: rest) := by
            rw [hsuf]
            rfl
          rw [show dumpChars (Json.obj (f :: tl)) ++ rest =
              lbrace :: (dumpFields (f :: tl) ++ rbrace :: rest) by
            simp only [dumpChars]; simp]
          simp only [parseValue]
          rw [skipWs_cons_of_not_ws (by decide)]
          rw [hrw] at hfe ⊢
          have hsk : skipWs ('"' :: (suf ++ rbrace :: rest)) =
              '"' :: (suf ++ rbrace :: rest) := skipWs_cons_of_not_ws (by decide) _
          simp [hsk, hfe, show ('"' : Char) ≠ rbrace by decide, show lbrace ≠ 'n' by decide,
            show lbrace ≠ 't' by decide, show lbrace ≠ 'f' by decide,
            show lbrace ≠ '"' by decide, show lbrace ≠ '[' by decide]
    · intro xs rest hne hf
      cases xs with
      | nil => exact absurd rfl hne
      | cons x tl =>
        cases tl with
        | nil =>
          have hvx : jsonFuel x ≤ fuel := by
            simp only [jsonFuelElems] at hf
            omega
          rw [show dumpElems [x] ++ ']' :: rest = dumpChars x ++ ']' :: rest by
            simp only [dumpElems]]
          simp only [parseElems]
          rw [ihv x (']' :: rest) hvx (by simp [noDigitHead])]
          have hsk : skipWs (']' :: rest) = ']' :: rest :=
            skipWs_cons_of_not_ws (by decide) _
          simp [hsk]
        | cons y t =>
          have hbx : jsonFuel x ≤ fuel := by
            simp only [jsonFuelElems] at hf
            omega
          have hbyt : jsonFuelElems (y :: t) ≤ fuel := by
            simp only [jsonFuelElems] at hf ⊢
            omega
          rw [show dumpElems (x :: y :: t) ++ ']' :: rest =
              dumpChars x ++ (',' :: ' ' :: (dumpElems (y :: t) ++ ']' :: rest)) by
            simp only [dumpElems]; simp]
          simp only [parseElems]
          rw [ihv x _ hbx (by simp [noDigitHead])]
          have hsk : skipWs (',' :: ' ' :: (dumpElems (y :: t) ++ ']' :: rest)) =
              ',' :: ' ' :: (dumpElems (y :: t) ++ ']' :: rest) :=
            skipWs_cons_of_not_ws (by decide) _
          have hws : parseElems fuel (' ' :: (dumpElems (y :: t) ++ ']' :: rest)) =
              parseElems fuel (dumpElems (y :: t) ++ ']' :: rest) :=
            parseElems_ws fuel (by decide) _
          simp [hsk, hws, ihe (y :: t) rest (by simp) hbyt]
    · intro kvs rest hne hf
      cases kvs with
      | nil => exact absurd rfl hne
      | cons f tl =>
        obtain ⟨k, v⟩ := f
        cases tl with
        | nil =>
          have hvv : jsonFuel v ≤ fuel := by
            simp only [jsonFuelFields] at hf
            omega
          rw [show dumpFields [(k, v)] ++ rbrace :: rest =
              '"' :: (k.data.flatMap escapeChar ++ '"' :: (':' :: ' ' ::
                (dumpChars v ++ rbrace :: rest))) by
            simp only [dumpFields, dumpString]; simp]
          simp only [parseFields]
          have hsk1 : skipWs ('"' :: (k.data.flatMap escapeChar ++ '"' :: (':' :: ' ' ::
              (dumpChars v ++ rbrace :: rest)))) =
              '"' :: (k.data.flatMap escapeChar ++ '"' ::
                (':' :: ' ' :: (dumpChars v ++ rbrace :: rest))) :=
            skipWs_cons_of_not_ws (by decide) _
          have hps := parseStringBody_escape k.data
            (':' :: ' ' :: (dumpChars v ++ rbrace :: rest))
          have hsk2 : skipWs (':' :: ' ' :: (dumpChars v ++ rbrace :: rest)) =
              ':' :: ' ' :: (dumpChars v ++ rbrace :: rest) :=
            skipWs_cons_of_not_ws (by decide) _
          have hpv : parseValue fuel (' ' :: (dumpChars v ++ rbrace :: rest)) =
              some (v, rbrace :: rest) := by
            rw [parseValue_ws fuel (by decide)]
            exact ihv v (rbrace :: rest) hvv (by simp [noDigitHead]; decide)
          have hsk3 : skipWs (rbrace :: rest) = rbrace :: rest :=
            skipWs_cons_of_not_ws (by decide) _
          simp [hsk1, hps, hsk2, hpv, hsk3, show String.mk k.data = k from rfl,
            show rbrace ≠ ',' by decide]
        | cons g t =>
          have hvv : jsonFuel v ≤ fuel := by
            simp only [jsonFuelFields] at hf
            omega
          have hgt : jsonFuelFields (g :: t) ≤ fuel := by
            simp only [jsonFuelFields] at hf ⊢
            omega
          rw [show dumpFields ((k, v) :: g :: t) ++ rbrace :: rest =
              '"' :: (k.data.flatMap escapeChar ++ '"' :: (':' :: ' ' ::
                (dumpChars v ++ ',' :: ' ' :: (dumpFields (g :: t) ++ rbrace :: rest)))) by
            simp only [dumpFields, dumpString]; simp]
          simp only [parseFields]
          have hsk1 : skipWs ('"' :: (k.data.flatMap escapeChar ++ '"' :: (':' :: ' ' ::
              (dumpChars v ++ ',' :: ' ' :: (dumpFields (g :: t) ++ rbrace :: rest))))) =
              '"' :: (k.data.flatMap escapeChar ++ '"' :: (':' :: ' ' ::
                (dumpChars v ++ ',' :: ' ' :: (dumpFields (g :: t) ++ rbrace :: rest)))) :=
            skipWs_cons_of_not_ws (by decide) _
          have hps := parseStringBody_escape k.data
            (':' :: ' ' :: (dumpChars v ++ ',' :: ' ' ::
              (dumpFields (g :: t) ++ rbrace :: rest)))
          have hsk2 : skipWs (':' :: ' ' :: (dumpChars v ++ ',' :: ' ' ::
              (dumpFields (g :: t) ++ rbrace :: rest))) =
              ':' :: ' ' :: (dumpChars v ++ ',' :: ' ' ::
                (dumpFields (g :: t) ++ rbrace :: rest)) :=
            skipWs_cons_of_not_ws (by decide) _
          have hpv : parseValue fuel (' ' :: (dumpChars v ++ ',' :: ' ' ::
              (dumpFields (g :: t) ++ rbrace :: rest))) =
              some (v, ',' :: ' ' :: (dumpFields (g :: t) ++ rbrace :: rest)) := by
            rw [parseValue_ws fuel (by decide)]
            exact ihv v _ hvv (by simp [noDigitHead])
          have hsk4 : skipWs (',' :: ' ' :: (dumpFields (g :: t) ++ rbrace :: rest)) =
              ',' :: ' ' :: (dumpFields (g :: t) ++ rbrace :: rest) :=
            skipWs_cons_of_not_ws (by decide) _
          have hwf : parseFields fuel (' ' :: (dumpFields (g :: t) ++ rbrace :: rest)) =
              parseFields fuel (dumpFields (g :: t) ++ rbrace :: rest) :=
            parseFields_ws fuel (by decide) _
          simp [hsk1, hps, hsk2, hpv, hsk4, hwf, show String.mk k.data = k from rfl,
            ihf (g :: t) rest (by simp) hgt]

theorem dumpChars_ne_nil (j : Json) : dumpChars j ≠ [] := by
  obtain ⟨c, tl, heq, _, _⟩ := dumpChars_head j
  simp [heq]

theorem jsonFuelElems_le (xs : List Json)
    (h : ∀ x ∈ xs, jsonFuel x ≤ (dumpChars x).length) :
    jsonFuelElems xs ≤ (dumpElems xs).length + 1 := by
  induction xs with
  | nil => simp [jsonFuelElems]
  | cons x tl ih =>
    cases tl with
    | nil =>
      have hx := h x (by simp)
      simp only [jsonFuelElems, dumpElems]
      omega
    | cons y t =>
      have hx := h x (by simp)
      have ht := ih (fun z hz => h z (by simp [hz]))
      simp only [jsonFuelElems, dumpElems, List.length_append, List.length_cons] at ht ⊢
      omega

theorem jsonFuelFields_le (kvs : List (String × Json))
    (h : ∀ p ∈ kvs, jsonFuel p.2 ≤ (dumpChars p.2).length) :
    jsonFuelFields kvs ≤ (dumpFields kvs).length + 1 := by
  induction kvs with
  | nil => simp [jsonFuelFields]
  | cons f tl ih =>
    obtain ⟨k, v⟩ := f
    cases tl with
    | nil =>
      have hv := h (k, v) (by simp)
      simp only [jsonFuelFields, dumpFields, List.length_append, List.length_cons]
      simp only at hv
      omega
    | cons g t =>
      have hv := h (k, v) (by simp)
      have ht := ih (fun z hz => h z (by simp [hz]))
      simp only at hv
      simp only [jsonFuelFields, dumpFields, List.length_append, List.length_cons] at ht ⊢
      omega

theorem jsonFuel_le_dump : ∀ (n : Nat) (j : Json), sizeOf j ≤ n →
    jsonFuel j ≤ (dumpChars j).length := by
  intro n
  induction n with
  | zero =>
    intro j h
    exfalso
    have : 0 < sizeOf j := by cases j <;> simp_arith
    omega
  | succ n ih =>
    intro j hsz
    have hlen : 1 ≤ (dumpChars j).length := by
      cases hdc : dumpChars j with
      | nil => exact absurd hdc (dumpChars_ne_nil j)
      | cons c tl => simp
    cases j with
    | null => simpa [jsonFuel] using hlen
    | bool b => simpa [jsonFuel] using hlen
    | num i => simpa [jsonFuel] using hlen
    | str s => simpa [jsonFuel] using hlen
    | arr xs =>
      have helems : ∀ x ∈ xs, jsonFuel x ≤ (dumpChars x).length := by
        intro x hx
        apply ih
        have h1 := List.sizeOf_lt_of_mem hx
        have h2 : sizeOf (Json.arr xs) = 1 + sizeOf xs := by simp
        omega
      have hb := jsonFuelElems_le xs helems
      simp only [jsonFuel, dumpChars, List.length_cons, List.length_append,
        List.length_singleton]
      omega
    | obj kvs =>
      have hfields : ∀ p ∈ kvs, jsonFuel p.2 ≤ (dumpChars p.2).length := by
        intro p hp
        apply ih
        have h1 := List.sizeOf_lt_of_mem hp
        have h2 : sizeOf (Json.obj kvs) = 1 + sizeOf kvs := by simp
        have h3 : sizeOf p.2 ≤ sizeOf p := by
          obtain ⟨a, b⟩ := p
          simp
        omega
      have hb := jsonFuelFields_le kvs hfields
      simp only [jsonFuel, dumpChars, List.length_cons, List.length_append,
        List.length_singleton]
      omega

theorem jsonParse_jsonDump (j : Json) : jsonParse (jsonDump j) = some j := by
  have hfuel : jsonFuel j ≤ (dumpChars j).length + 1 := by
    have := jsonFuel_le_dump (sizeOf j) j le_rfl
    omega
  have hmain := (parse_dump_main ((dumpChars j).length + 1)).1 j [] hfuel (by decide)
  rw [List.append_nil] at hmain
  unfold jsonParse jsonDump
  rw [show (String.mk (dumpChars j)).length = (dumpChars j).length from rfl]
  rw [show (String.mk (dumpChars j)).data = dumpChars j from rfl]
  rw [hmain]
  simp [skipWs]

/-- C9: for every well-formed JSON input document — one `json.loads` accepts,
parsing to the structure `j` — the post-scale hook leaves the file holding
exactly the re-serialization `json.dumps` of `j`, whatever the file held
before, and parsing the written file yields a structure equal to the parsed
input. -/
theorem post_scale_round_trip (stdin : String) (prev : Option String) (j : Json)
    (h : jsonParse stdin = some j) :
    postScaleMain stdin prev = some (jsonDump j) ∧
    jsonParse (jsonDump j) = some j :=
  ⟨by simp [postScaleMain, h], jsonParse_jsonDump j⟩

/-- Witness for C9 at a concrete scale-info document, with previous file
content present and overwritten. -/
theorem post_scale_round_trip_witness :
    postScaleMain "\x7b\"evaluation\": \x7b\"targetReplicas\": 3\x7d\x7d"
        (some "old content") =
      some (jsonDump (Json.obj [("evaluation",
        Json.obj [("targetReplicas", Json.num 3)])])) ∧
    jsonParse (jsonDump (Json.obj [("evaluation",
        Json.obj [("targetReplicas", Json.num 3)])])) =
      some (Json.obj [("evaluation", Json.obj [("targetReplicas", Json.num 3)])]) :=
  post_scale_round_trip _ _ _ rfl

end CPA
